import Mathlib

/-!
Verification of the Overlanding Trip Planner client core.

The definitions below are a shallow embedding of the repository's three
source files: the Nominatim-based application variant (geocoding with
debounce, trip planning, selection) and the Leaflet map component
(route-geometry conversion, marker classification, bounds fitting).
Asynchronous behaviour (debounce timers, in-flight fetches, responses)
is embedded as an explicit event step function over an explicit state,
with a Boolean trace-validity predicate capturing the single-threaded
event-loop semantics: event times are monotone, a scheduled timer fires
exactly at its deadline unless it is replaced first, and only issued,
not-yet-resolved requests may deliver a response.
-/

namespace Overlanding

/-! ## GeocodeSearch: state and events

Embedding of `geocodeCity` (Nominatim application variant):
queries shorter than 3 characters clear the suggestion list and return;
otherwise the pending debounce timer is cleared and a fresh 400 ms timer
is scheduled; when a timer fires the searching flag is set and a network
request for the timer's query is issued; when a response resolves, its
suggestion payload (or the empty list on failure) is stored and the
searching flag is cleared.  Suggestion payloads are abstracted to lists
of strings; the temporal claims do not depend on their inner structure. -/

structure GState where
  suggestions : List String
  searching : Bool
  /-- Pending debounce timer: (timer id, fire time, query). -/
  timer : Option (Nat × Nat × String)
  nextTid : Nat
  /-- Queries sent to the network so far, in issue order; a request's id
  is its index in this list. -/
  issued : List String
  /-- Request ids whose response has already been applied. -/
  resolved : List Nat
deriving DecidableEq, Repr

def initG : GState :=
  { suggestions := [], searching := false, timer := none,
    nextTid := 0, issued := [], resolved := [] }

inductive GEvent where
  /-- A keystroke at time `t` leaving the field's query text equal to `q`
  (one invocation of `geocodeCity`). -/
  | key (t : Nat) (q : String)
  /-- The debounce timer with id `tid` fires at time `t`. -/
  | fire (t : Nat) (tid : Nat)
  /-- The fetch for request `rid` resolves at time `t`; `ok = false`
  models a network or parse failure (the `catch` branch). -/
  | resp (t : Nat) (rid : Nat) (ok : Bool) (result : List String)
deriving DecidableEq, Repr

def GEvent.time : GEvent → Nat
  | key t _ => t
  | fire t _ => t
  | resp t _ _ _ => t

def gstep (s : GState) : GEvent → GState
  | .key t q =>
      if q.length < 3 then
        { s with suggestions := [] }
      else
        { s with timer := some (s.nextTid, t + 400, q), nextTid := s.nextTid + 1 }
  | .fire _ tid =>
      match s.timer with
      | some (tid', _, q) =>
          if tid' = tid then
            { s with timer := none, searching := true, issued := s.issued ++ [q] }
          else s
      | none => s
  | .resp _ rid ok result =>
      { s with suggestions := if ok then result else [],
               searching := false,
               resolved := rid :: s.resolved }

def grun (s : GState) (tr : List GEvent) : GState :=
  tr.foldl gstep s

/-- Trace validity for the single-threaded event loop: times are
monotone from `now`; a fire event names the pending timer and occurs
exactly at its deadline; no other event may be timestamped past a
pending timer's deadline (the timer would have fired first); a response
is for an issued, not-yet-resolved request. -/
def gvalid : GState → Nat → List GEvent → Bool
  | _, _, [] => true
  | s, now, e :: rest =>
    decide (now ≤ e.time) &&
    (match e, s.timer with
     | .fire t tid, some (tid', fa, _) => (tid == tid') && (t == fa)
     | .fire _ _, none => false
     | _, some (_, fa, _) => decide (e.time ≤ fa)
     | _, none => true) &&
    (match e with
     | .resp _ rid _ _ => decide (rid < s.issued.length) && !(s.resolved.contains rid)
     | _ => true) &&
    gvalid (gstep s e) e.time rest

/-- All keystrokes in the trace arrive less than 400 ms after the
previous keystroke (`prev` is the time of the keystroke before the
trace, if any): a single debounce burst. -/
def keyGapsOk : Option Nat → List GEvent → Bool
  | _, [] => true
  | prev, .key t _ :: rest =>
      (match prev with
       | none => true
       | some p => decide (t < p + 400)) && keyGapsOk (some t) rest
  | prev, .fire _ _ :: rest => keyGapsOk prev rest
  | prev, .resp _ _ _ _ :: rest => keyGapsOk prev rest

/-- Every keystroke in the trace carries a query of length at least 3. -/
def keysLong : List GEvent → Bool
  | [] => true
  | .key _ q :: rest => decide (3 ≤ q.length) && keysLong rest
  | .fire _ _ :: rest => keysLong rest
  | .resp _ _ _ _ :: rest => keysLong rest

/-! ## GeocodeSearch: short-name derivation (`buildShortName`) -/

/-- Nominatim structured address record; the empty string stands for an
absent (JavaScript-falsy) field, matching the source's `|| ''` chains. -/
structure NAddress where
  city : String
  town : String
  village : String
  hamlet : String
  county : String
  state : String
  country_code : String
deriving DecidableEq, Repr

def emptyAddress : NAddress :=
  { city := "", town := "", village := "", hamlet := "", county := "",
    state := "", country_code := "" }

structure NResult where
  /-- `result.address`, absent when Nominatim returns no breakdown. -/
  address : Option NAddress
  display_name : String
deriving DecidableEq, Repr

/-- JavaScript `a || b` on strings: the empty string is falsy. -/
def jsOr (a b : String) : String :=
  if a = "" then b else a

/-- ASCII `toUpperCase`. -/
def toUpperStr (s : String) : String :=
  ⟨s.data.map Char.toUpper⟩

/-- `addr.city || addr.town || addr.village || addr.hamlet || addr.county || ''`. -/
def derivedCity (addr : NAddress) : String :=
  jsOr addr.city (jsOr addr.town (jsOr addr.village (jsOr addr.hamlet addr.county)))

def buildShortName (r : NResult) : String :=
  let addr := r.address.getD emptyAddress
  let city := derivedCity addr
  let state := addr.state
  let country := if addr.country_code = "" then "" else toUpperStr addr.country_code
  if city ≠ "" ∧ state ≠ "" then city ++ ", " ++ state
  else if city ≠ "" ∧ country ≠ "" then city ++ ", " ++ country
  else
    String.intercalate ", " (((r.display_name.splitOn ",").map String.trim).take 2)

/-! ## CoordinateAdapter: `getRoutePositions` (TripMap component)

The backend polyline arrives in `(lon, lat)` order; the map renderer
needs `(lat, lon)`.  `none` models an absent trip plan or absent
`route_geometry` field. -/

def getRoutePositions {α : Type} (routeGeometry : Option (List (α × α)))
    (start dest : α × α) : List (α × α) :=
  match routeGeometry with
  | some g => if 0 < g.length then g.map (fun c => (c.2, c.1)) else [start, dest]
  | none => [start, dest]

/-! ## MarkerClassifier (TripMap component and application variant) -/

/-- A Leaflet marker icon, identified by the colour of its marker asset
(`createIcon` in the source builds the icon from this colour). -/
structure LIcon where
  color : String
deriving DecidableEq, Repr

def createIcon (color : String) : LIcon :=
  { color := color }

/-- The `icons` lookup table; `icons.default` is `createIcon "grey"`. -/
def icons : List (String × LIcon) :=
  [("start", createIcon "green"), ("end", createIcon "red"),
   ("dispersed", createIcon "orange"), ("campground", createIcon "blue"),
   ("rv_park", createIcon "violet"), ("default", createIcon "grey")]

/-- `icons[type] || icons.default`; `none` models a missing `type`. -/
def getCampsiteIcon (ty : Option String) : LIcon :=
  match ty.bind (fun t => List.lookup t icons) with
  | some ic => ic
  | none => createIcon "grey"

def cellServiceColors : List (String × String) :=
  [("excellent", "#22c55e"), ("good", "#84cc16"),
   ("weak", "#eab308"), ("none", "#ef4444")]

/-- `colors[service] || '#6b7280'`; `none` models a missing field. -/
def getCellServiceColor (service : Option String) : String :=
  (service.bind (fun sv => List.lookup sv cellServiceColors)).getD "#6b7280"

def difficultyColors : List (String × String) :=
  [("easy", "#22c55e"), ("moderate", "#eab308"), ("difficult", "#ef4444")]

/-- `colors[diff] || '#6b7280'`; `none` models a missing field. -/
def getDifficultyColor (diff : Option String) : String :=
  (diff.bind (fun df => List.lookup df difficultyColors)).getD "#6b7280"

/-! ## Theorems -/

/-- C2: for every query string shorter than 3 characters, `geocodeCity`
only empties the suggestion list and returns: the resulting state is the
old state with `suggestions := []`, so in particular no network call is
issued (`issued` is unchanged) and no timer is scheduled. -/
theorem C2_short_query_no_call (s : GState) (t : Nat) (q : String)
    (h : q.length < 3) :
    gstep s (.key t q) = { s with suggestions := [] } := by
  simp [gstep, h]

theorem C2_short_query_no_call_witness :
    "ab".length < 3 ∧ gstep initG (.key 0 "ab") = { initG with suggestions := [] } :=
  ⟨by decide, C2_short_query_no_call initG 0 "ab" (by decide)⟩

/-- C3: on a non-empty backend polyline, `getRoutePositions` is exactly
the pointwise axis swap `(lon, lat) ↦ (lat, lon)` — same points, same
order, no rounding (the map is over an arbitrary coordinate type); on an
empty or absent polyline it is exactly `[start, dest]`. -/
theorem C3_toRenderOrder {α : Type} (g : List (α × α)) (s d : α × α)
    (h : g ≠ []) :
    getRoutePositions (some g) s d = g.map (fun c => (c.2, c.1)) ∧
    getRoutePositions (some ([] : List (α × α))) s d = [s, d] ∧
    getRoutePositions none s d = [s, d] := by
  refine ⟨?_, rfl, rfl⟩
  simp [getRoutePositions, List.length_pos.mpr h]

theorem C3_toRenderOrder_witness :
    getRoutePositions
        (some [((-97.74 : ℚ), (30.27 : ℚ)), ((-104.99 : ℚ), (39.74 : ℚ))])
        ((30.27 : ℚ), (-97.74 : ℚ)) ((39.74 : ℚ), (-104.99 : ℚ))
      = [((30.27 : ℚ), (-97.74 : ℚ)), ((39.74 : ℚ), (-104.99 : ℚ))] :=
  ((C3_toRenderOrder _ _ _ (by simp)).1).trans rfl

/-- C5: marker classification is total: `dispersed ↦ orange`,
`campground ↦ blue`, `rv_park ↦ violet`, and any type outside the
`icons` table — or a missing type — resolves to the grey default;
cell-service colours are `excellent ↦ #22c55e`, `good ↦ #84cc16`,
`weak ↦ #eab308`, `none ↦ #ef4444`, and any unrecognized or missing
cell-service or difficulty key falls through to `#6b7280`.  All three
classifiers are total Lean functions, so no input can make them throw. -/
theorem C5_marker_classification (ty sv df : String)
    (hty : List.lookup ty icons = none)
    (hsv : List.lookup sv cellServiceColors = none)
    (hdf : List.lookup df difficultyColors = none) :
    getCampsiteIcon (some "dispersed") = createIcon "orange" ∧
    getCampsiteIcon (some "campground") = createIcon "blue" ∧
    getCampsiteIcon (some "rv_park") = createIcon "violet" ∧
    getCampsiteIcon (some ty) = createIcon "grey" ∧
    getCampsiteIcon none = createIcon "grey" ∧
    getCellServiceColor (some "excellent") = "#22c55e" ∧
    getCellServiceColor (some "good") = "#84cc16" ∧
    getCellServiceColor (some "weak") = "#eab308" ∧
    getCellServiceColor (some "none") = "#ef4444" ∧
    getCellServiceColor (some sv) = "#6b7280" ∧
    getCellServiceColor none = "#6b7280" ∧
    getDifficultyColor (some df) = "#6b7280" ∧
    getDifficultyColor none = "#6b7280" := by
  refine ⟨by decide, by decide, by decide, ?_, by decide,
          by decide, by decide, by decide, by decide, ?_, by decide,
          ?_, by decide⟩
  · simp [getCampsiteIcon, hty]
  · simp [getCellServiceColor, hsv]
  · simp [getDifficultyColor, hdf]

theorem C5_marker_classification_witness :
    List.lookup "other" icons = none ∧
    getCampsiteIcon (some "other") = createIcon "grey" :=
  ⟨by decide,
   (C5_marker_classification "other" "zero" "zero"
      (by decide) (by decide) (by decide)).2.2.2.1⟩

/-- An ASCII `toUpperCase` of a non-empty string is non-empty. -/
lemma toUpperStr_ne_empty (s : String) (h : s ≠ "") : toUpperStr s ≠ "" := by
  intro hc
  apply h
  have hdata : s.data.map Char.toUpper = [] := congrArg String.data hc
  cases s with
  | mk data =>
    simp at hdata
    simp [hdata]

/-- C7: `buildShortName` is a pure function of the address record: with
the derived city field (first present of city, town, village, hamlet,
county) and a state both present it returns `"city, state"`; with the
city present, state absent and a country code present it returns
`"city, COUNTRY-CODE"`; otherwise it returns the first two
comma-separated (trimmed) tokens of the display name joined by `", "`. -/
theorem C7_buildShortName (r : NResult) (addr : NAddress)
    (hr : r.address = some addr) :
    (derivedCity addr ≠ "" → addr.state ≠ "" →
      buildShortName r = derivedCity addr ++ ", " ++ addr.state) ∧
    (derivedCity addr ≠ "" → addr.state = "" → addr.country_code ≠ "" →
      buildShortName r = derivedCity addr ++ ", " ++ toUpperStr addr.country_code) ∧
    (derivedCity addr = "" ∨ (addr.state = "" ∧ addr.country_code = "") →
      buildShortName r = String.intercalate ", "
        (((r.display_name.splitOn ",").map String.trim).take 2)) := by
  refine ⟨?_, ?_, ?_⟩
  · intro hc hs
    simp [buildShortName, hr, hc, hs]
  · intro hc hs hcc
    simp [buildShortName, hr, hc, hs, hcc, toUpperStr_ne_empty _ hcc]
  · intro hfall
    rcases hfall with hc | ⟨hs, hcc⟩
    · simp [buildShortName, hr, hc]
    · simp [buildShortName, hr, hs, hcc]

theorem C7_buildShortName_witness :
    buildShortName
        { address := some { city := "Austin", town := "", village := "",
                            hamlet := "", county := "", state := "Texas",
                            country_code := "us" },
          display_name := "Austin, Travis County, Texas, United States" }
      = "Austin, Texas" :=
  ((C7_buildShortName _ _ rfl).1 (by decide) (by decide)).trans (by decide)

/-- C8: a failed network call or failed response parse (the `catch`
branch) sets the field's suggestion list to the empty sequence and
clears the searching indicator; `gstep` is a total function, so the
failure is never fatal. -/
theorem C8_failure_empties_and_clears (s : GState) (t rid : Nat)
    (res : List String) :
    (gstep s (.resp t rid false res)).suggestions = [] ∧
    (gstep s (.resp t rid false res)).searching = false := by
  constructor <;> simp [gstep]

/-- C1 evidence: the source tracks no sequence numbers, so a stale
response is applied whenever it resolves last.  In this valid trace the
query `"austin"` (request 0) is issued at 400 ms, superseded by
`"denver"` (request 1, issued at 900 ms); request 1's response arrives
first (950 ms) and request 0's stale response afterwards (1000 ms), and
the final rendered suggestion list is request 0's — the behaviour the
claim forbids. -/
theorem C1_stale_response_overwrites :
    gvalid initG 0
        [.key 0 "austin", .fire 400 0, .key 500 "denver", .fire 900 1,
         .resp 950 1 true ["Denver, CO"], .resp 1000 0 true ["Austin, TX"]]
      = true ∧
    (grun initG
        [.key 0 "austin", .fire 400 0, .key 500 "denver", .fire 900 1,
         .resp 950 1 true ["Denver, CO"], .resp 1000 0 true ["Austin, TX"]]).issued
      = ["austin", "denver"] ∧
    (grun initG
        [.key 0 "austin", .fire 400 0, .key 500 "denver", .fire 900 1,
         .resp 950 1 true ["Denver, CO"], .resp 1000 0 true ["Austin, TX"]]).suggestions
      = ["Austin, TX"] ∧
    ["Austin, TX"] ≠ ["Denver, CO"] := by
  decide

/-- C4 counterexample: a valid, fully settled trace in which every
keystroke arrives 350 ms after the previous one (all gaps are below the
400 ms debounce interval, `keyGapsOk`), yet two network calls are
issued: the middle keystroke leaves a query of length 2, which does not
reset the pending timer, so the first timer fires mid-burst. -/
theorem C4_counterexample :
    gvalid initG 0
        [.key 0 "abc", .key 350 "ab", .fire 400 0, .key 700 "abd", .fire 1100 1]
      = true ∧
    keyGapsOk none
        [.key 0 "abc", .key 350 "ab", .fire 400 0, .key 700 "abd", .fire 1100 1]
      = true ∧
    (grun initG
        [.key 0 "abc", .key 350 "ab", .fire 400 0, .key 700 "abd", .fire 1100 1]).timer
      = none ∧
    (grun initG
        [.key 0 "abc", .key 350 "ab", .fire 400 0, .key 700 "abd", .fire 1100 1]).issued.length
      = 2 := by
  decide

/-- After the pending timer has fired (no timer is pending and the most
recent keystroke is at least 400 ms in the past), a trace whose
keystrokes all stay within 400 ms of the previous keystroke cannot issue
any further network call: a keystroke would have to be timestamped
before `now`, and a fire event has no timer to consume. -/
lemma issued_stable_after_fire (tr : List GEvent) :
    ∀ (s : GState) (now p : Nat),
      gvalid s now tr = true → keyGapsOk (some p) tr = true →
      s.timer = none → p + 400 ≤ now →
      (grun s tr).issued = s.issued := by
  induction tr with
  | nil => intro s now p _ _ _ _; rfl
  | cons e rest ih =>
    intro s now p hv hg ht hp
    cases e with
    | key t q =>
      exfalso
      simp only [gvalid, GEvent.time, ht, Bool.and_eq_true, decide_eq_true_eq] at hv
      simp only [keyGapsOk, Bool.and_eq_true, decide_eq_true_eq] at hg
      have h1 := hv.1.1.1
      have h2 := hg.1
      omega
    | fire t tid =>
      exfalso
      simp [gvalid, ht] at hv
    | resp t rid ok res =>
      simp only [gvalid, GEvent.time, ht, Bool.and_eq_true, decide_eq_true_eq] at hv
      have hrest := hv.2
      have hg' : keyGapsOk (some p) rest = true := by
        simpa [keyGapsOk] using hg
      have ht' : (gstep s (.resp t rid ok res)).timer = none := by
        simp [gstep, ht]
      have hstep : (gstep s (.resp t rid ok res)).issued = s.issued := by
        simp [gstep]
      have h2 := ih (gstep s (.resp t rid ok res)) t p hrest hg' ht' (by omega)
      simpa [grun, hstep] using h2

/-- In a single debounce burst (every keystroke less than 400 ms after
the previous one) in which every keystroke's query has length at least
3, at most one network call is issued beyond those already in `issued`.
The timer invariant: either no timer is pending, or the pending timer
was scheduled by the most recent keystroke and fires 400 ms after it. -/
lemma burst_at_most_one_call (tr : List GEvent) :
    ∀ (s : GState) (now : Nat) (prev : Option Nat),
      gvalid s now tr = true → keyGapsOk prev tr = true → keysLong tr = true →
      (s.timer = none ∨
        ∃ tid q p, prev = some p ∧ s.timer = some (tid, p + 400, q)) →
      (grun s tr).issued.length ≤ s.issued.length + 1 := by
  induction tr with
  | nil => intro s now prev _ _ _ _; simp [grun]
  | cons e rest ih =>
    intro s now prev hv hg hl hinv
    cases e with
    | key t q =>
      have hlong : 3 ≤ q.length := by
        simp only [keysLong, Bool.and_eq_true, decide_eq_true_eq] at hl
        exact hl.1
      have hl' : keysLong rest = true := by
        simp only [keysLong, Bool.and_eq_true, decide_eq_true_eq] at hl
        exact hl.2
      have hnl : ¬ q.length < 3 := by omega
      have hg' : keyGapsOk (some t) rest = true := by
        simp only [keyGapsOk, Bool.and_eq_true] at hg
        exact hg.2
      have hstep : gstep s (.key t q)
          = { s with timer := some (s.nextTid, t + 400, q),
                     nextTid := s.nextTid + 1 } := by
        simp [gstep, hnl]
      have hrest : gvalid (gstep s (.key t q)) t rest = true := by
        rcases hinv with ht | ⟨tid0, q0, p0, _, ht⟩ <;>
          simp only [gvalid, GEvent.time, ht, Bool.and_eq_true,
            decide_eq_true_eq] at hv <;>
          exact hv.2
      have h2 := ih (gstep s (.key t q)) t (some t) hrest hg' hl'
        (Or.inr ⟨s.nextTid, q, t, rfl, by rw [hstep]⟩)
      simpa [grun, hstep] using h2
    | fire t tid =>
      rcases hinv with ht | ⟨tid0, q0, p0, hprev, ht⟩
      · exfalso
        simp [gvalid, ht] at hv
      · simp only [gvalid, GEvent.time, ht, Bool.and_eq_true,
          decide_eq_true_eq, beq_iff_eq] at hv
        obtain ⟨⟨⟨hnow, htid, hts⟩, -⟩, hrest⟩ := hv
        have hstep : gstep s (.fire t tid)
            = { s with timer := none, searching := true,
                       issued := s.issued ++ [q0] } := by
          simp [gstep, ht, htid.symm]
        have hg' : keyGapsOk (some p0) rest = true := by
          rw [hprev] at hg
          simpa [keyGapsOk] using hg
        have hfin := issued_stable_after_fire rest (gstep s (.fire t tid)) t p0
          hrest hg' (by rw [hstep]) (by omega)
        have : (grun s (.fire t tid :: rest)).issued = s.issued ++ [q0] := by
          simpa [grun, hstep] using hfin
        simp [this]
    | resp t rid ok res =>
      have hg' : keyGapsOk prev rest = true := by
        simpa [keyGapsOk] using hg
      have hl' : keysLong rest = true := by
        simpa [keysLong] using hl
      have hstep : (gstep s (.resp t rid ok res)).issued = s.issued := by
        simp [gstep]
      have htimer : (gstep s (.resp t rid ok res)).timer = s.timer := by
        simp [gstep]
      have hrest : gvalid (gstep s (.resp t rid ok res)) t rest = true := by
        rcases hinv with ht | ⟨tid0, q0, p0, _, ht⟩ <;>
          simp only [gvalid, GEvent.time, ht, Bool.and_eq_true,
            decide_eq_true_eq] at hv <;>
          exact hv.2
      have hinv' : (gstep s (.resp t rid ok res)).timer = none ∨
          ∃ tid q p, prev = some p ∧
            (gstep s (.resp t rid ok res)).timer = some (tid, p + 400, q) := by
        rw [htimer]; exact hinv
      have h2 := ih (gstep s (.resp t rid ok res)) t prev hrest hg' hl' hinv'
      simpa [grun, hstep] using h2

/-- C4 amended: in every valid single-burst trace (each keystroke less
than 400 ms after the previous one) in which every keystroke's query has
length at least 3 — so that every keystroke actually resets the pending
timer — at most one network call is issued. -/
theorem C4_amended_debounce_bound (tr : List GEvent)
    (hv : gvalid initG 0 tr = true)
    (hg : keyGapsOk none tr = true)
    (hl : keysLong tr = true) :
    (grun initG tr).issued.length ≤ 1 := by
  have h := burst_at_most_one_call tr initG 0 none hv hg hl (Or.inl rfl)
  simpa [initG] using h

theorem C4_amended_debounce_bound_witness :
    (grun initG [.key 0 "abc", .key 300 "abcd", .fire 700 1]).issued.length ≤ 1 :=
  C4_amended_debounce_bound [.key 0 "abc", .key 300 "abcd", .fire 700 1]
    (by decide) (by decide) (by decide)

/-- C10: a keystroke leaving a query of length below 3, arriving while a
longer query's 400 ms timer is still pending, empties the suggestion
list but leaves the timer untouched; the timer then fires, the earlier
longer query's network call is issued, and its response replaces the
just-emptied suggestion list. -/
theorem C10_short_query_leaves_timer (q1 q2 : String) (res : List String)
    (t' d : Nat) (h1 : 3 ≤ q1.length) (h2 : q2.length < 3) (h3 : t' < 400) :
    gvalid initG 0
        [.key 0 q1, .key t' q2, .fire 400 0, .resp (400 + d) 0 true res] = true ∧
    (grun initG [.key 0 q1, .key t' q2]).suggestions = [] ∧
    (grun initG [.key 0 q1, .key t' q2]).timer = some (0, 400, q1) ∧
    (grun initG
        [.key 0 q1, .key t' q2, .fire 400 0, .resp (400 + d) 0 true res]).issued
      = [q1] ∧
    (grun initG
        [.key 0 q1, .key t' q2, .fire 400 0, .resp (400 + d) 0 true res]).suggestions
      = res := by
  have hn1 : ¬ q1.length < 3 := by omega
  refine ⟨?_, ?_, ?_, ?_, ?_⟩ <;>
    (simp [gvalid, grun, gstep, initG, GEvent.time, hn1, h2]; try omega)

theorem C10_short_query_leaves_timer_witness :
    gvalid initG 0
        [.key 0 "abc", .key 100 "ab", .fire 400 0, .resp (400 + 50) 0 true ["x"]]
      = true ∧
    (grun initG [.key 0 "abc", .key 100 "ab"]).suggestions = [] ∧
    (grun initG [.key 0 "abc", .key 100 "ab"]).timer = some (0, 400, "abc") ∧
    (grun initG
        [.key 0 "abc", .key 100 "ab", .fire 400 0, .resp (400 + 50) 0 true ["x"]]).issued
      = ["abc"] ∧
    (grun initG
        [.key 0 "abc", .key 100 "ab", .fire 400 0, .resp (400 + 50) 0 true ["x"]]).suggestions
      = ["x"] :=
  C10_short_query_leaves_timer "abc" "ab" ["x"] 100 50
    (by decide) (by decide) (by decide)

/-! ## SelectionCoordinator and `planTrip` (application variant)

Embedding of the selection / trip-plan state and its event handlers:
`handleCampsiteSelect` stores the clicked site, the clear button stores
`none`, and `planTrip` sets loading, clears the error and the selection
when the request is *initiated*, then stores the response when it
resolves (plan results are identified by an abstract token, selections
by the selected site's id). -/

structure AppState where
  selectedCampsite : Option Nat
  tripPlan : Option Nat
  loading : Bool
  error : Option String
deriving DecidableEq, Repr

def initApp : AppState :=
  { selectedCampsite := none, tripPlan := none, loading := false, error := none }

inductive AEvent where
  /-- `handleCampsiteSelect(site)`: marker or card click. -/
  | selectSite (id : Nat)
  /-- The clear-selection button. -/
  | clearSelection
  /-- `planTrip` invoked: the plan button clicked. -/
  | planStart
  /-- The trip-plan fetch resolves successfully with a new result. -/
  | planOk (plan : Nat)
  /-- The trip-plan fetch fails (`catch` branch). -/
  | planErr (msg : String)
deriving DecidableEq, Repr

def astep (s : AppState) : AEvent → AppState
  | .selectSite id => { s with selectedCampsite := some id }
  | .clearSelection => { s with selectedCampsite := none }
  | .planStart => { s with loading := true, error := none, selectedCampsite := none }
  | .planOk p => { s with tripPlan := some p, loading := false }
  | .planErr m => { s with error := some m, loading := false }

def arun (s : AppState) (tr : List AEvent) : AppState :=
  tr.foldl astep s

/-- UI reachability of the events: a site can be clicked only when a
trip-plan result is rendered; the clear button exists only when a
selection is rendered; the plan button is disabled while loading; a
plan response resolves only while a request is in flight. -/
def avalid (s : AppState) : List AEvent → Bool
  | [] => true
  | e :: rest =>
    (match e with
     | .selectSite _ => s.tripPlan.isSome
     | .clearSelection => s.selectedCampsite.isSome
     | .planStart => !s.loading
     | .planOk _ => s.loading
     | .planErr _ => s.loading) &&
    avalid (astep s e) rest

/-- C6 counterexample: `planTrip` clears the selection when the request
is initiated, not when the result arrives.  In this valid trace a site
of the first plan result is selected while the second request is in
flight; the second result is then stored while that stale selection is
still in place, so a selection referencing the previous result coexists
with the newer result. -/
theorem C6_counterexample :
    avalid initApp
        [.planStart, .planOk 0, .selectSite 42, .planStart, .selectSite 7, .planOk 1]
      = true ∧
    (arun initApp
        [.planStart, .planOk 0, .selectSite 42, .planStart, .selectSite 7, .planOk 1]).tripPlan
      = some 1 ∧
    (arun initApp
        [.planStart, .planOk 0, .selectSite 42, .planStart, .selectSite 7, .planOk 1]).selectedCampsite
      = some 7 := by
  decide

/-- Selection stays cleared under any events other than a site click. -/
lemma selection_none_stable (evs : List AEvent) :
    ∀ s : AppState, s.selectedCampsite = none →
      (∀ id, AEvent.selectSite id ∉ evs) →
      (arun s evs).selectedCampsite = none := by
  induction evs with
  | nil => intro s hs _; exact hs
  | cons e rest ih =>
    intro s hs hno
    have hno' : ∀ id, AEvent.selectSite id ∉ rest := by
      intro id hmem
      exact hno id (List.mem_cons_of_mem e hmem)
    have hs' : (astep s e).selectedCampsite = none := by
      cases e with
      | selectSite id => exact absurd (List.mem_cons_self _ _) (hno id)
      | clearSelection => simp [astep]
      | planStart => simp [astep]
      | planOk p => simp [astep, hs]
      | planErr m => simp [astep, hs]
    simpa [arun] using ih (astep s e) hs' hno'

/-- C6 amended: initiating a trip-plan request clears the selection, and
as long as no site is clicked while the request is in flight, the state
in which the fresh result is stored has no selection. -/
theorem C6_amended_selection_reset (s : AppState) (evs : List AEvent) (p : Nat)
    (hno : ∀ id, AEvent.selectSite id ∉ evs) :
    (astep s .planStart).selectedCampsite = none ∧
    (astep (arun (astep s .planStart) evs) (.planOk p)).selectedCampsite = none ∧
    (astep (arun (astep s .planStart) evs) (.planOk p)).tripPlan = some p := by
  have h0 : (astep s .planStart).selectedCampsite = none := by simp [astep]
  have h1 := selection_none_stable evs (astep s .planStart) h0 hno
  exact ⟨h0, by simpa [astep] using h1, by simp [astep]⟩

theorem C6_amended_selection_reset_witness :
    (astep initApp .planStart).selectedCampsite = none ∧
    (astep (arun (astep initApp .planStart) []) (.planOk 0)).selectedCampsite = none ∧
    (astep (arun (astep initApp .planStart) []) (.planOk 0)).tripPlan = some 0 :=
  C6_amended_selection_reset initApp [] 0 (by simp)

/-! ## BoundsCalculator (TripMap component and, for the viewport
computation itself, modelled from the spec)

The source builds `allPoints = [[startLat, startLon], [destLat, destLon]]`
and pushes every nearby campsite's `[lat, lon]`; `FitBounds` calls
`map.fitBounds(bounds, { padding: [50, 50] })` whenever the list is
non-empty.  The viewport computation inside `fitBounds` belongs to the
external map surface and is not part of the repository's sources. -/

/-- `allPoints` of `TripMap`: start, destination, then every campsite. -/
def allPoints (start dest : ℚ × ℚ) (campsites : List (ℚ × ℚ)) : List (ℚ × ℚ) :=
  start :: dest :: campsites

structure Viewport where
  south : ℚ
  north : ℚ
  west : ℚ
  east : ℚ
deriving DecidableEq, Repr

/-- Least value of `f` over `p :: rest`. -/
def lowerBoundOn (f : ℚ × ℚ → ℚ) (p : ℚ × ℚ) (rest : List (ℚ × ℚ)) : ℚ :=
  rest.foldl (fun a q => min a (f q)) (f p)

/-- Greatest value of `f` over `p :: rest`. -/
def upperBoundOn (f : ℚ × ℚ → ℚ) (p : ℚ × ℚ) (rest : List (ℚ × ℚ)) : ℚ :=
  rest.foldl (fun a q => max a (f q)) (f p)

/-- Widen a degenerate interval to at least the minimum extent. -/
def stretch (lo hi minExt : ℚ) : ℚ × ℚ :=
  if hi - lo < minExt then (lo - minExt, hi + minExt) else (lo, hi)

/-- Modelled from the spec: the viewport computation performed by the
external map surface (`map.fitBounds`), which is not under `src/`.
Following §4.3 and §6 it covers every supplied point with a fixed
padding margin and applies a minimum extent so that a zero-extent point
set still yields a valid viewport; an empty point set yields none. -/
def fitViewport : List (ℚ × ℚ) → ℚ → ℚ → Option Viewport
  | [], _, _ => none
  | p :: rest, pad, minExt =>
    some { south := (stretch (lowerBoundOn Prod.fst p rest - pad)
                             (upperBoundOn Prod.fst p rest + pad) minExt).1
         , north := (stretch (lowerBoundOn Prod.fst p rest - pad)
                             (upperBoundOn Prod.fst p rest + pad) minExt).2
         , west := (stretch (lowerBoundOn Prod.snd p rest - pad)
                            (upperBoundOn Prod.snd p rest + pad) minExt).1
         , east := (stretch (lowerBoundOn Prod.snd p rest - pad)
                            (upperBoundOn Prod.snd p rest + pad) minExt).2 }

/-- The `FitBounds` effect: fit only when the bounds list is non-empty
(`bounds && bounds.length > 0`). -/
def fitBoundsEffect (bounds : List (ℚ × ℚ)) (pad minExt : ℚ) : Option Viewport :=
  if 0 < bounds.length then fitViewport bounds pad minExt else none

lemma foldl_min_le_init (l : List (ℚ × ℚ)) (f : ℚ × ℚ → ℚ) :
    ∀ a : ℚ, l.foldl (fun acc q => min acc (f q)) a ≤ a := by
  induction l with
  | nil => intro a; exact le_refl a
  | cons x xs ih =>
    intro a
    exact le_trans (ih (min a (f x))) (min_le_left _ _)

lemma foldl_min_le_mem (l : List (ℚ × ℚ)) (f : ℚ × ℚ → ℚ) :
    ∀ (a : ℚ) (x : ℚ × ℚ), x ∈ l →
      l.foldl (fun acc q => min acc (f q)) a ≤ f x := by
  induction l with
  | nil => intro a x hx; cases hx
  | cons y ys ih =>
    intro a x hx
    cases hx with
    | head => exact le_trans (foldl_min_le_init ys f (min a (f y))) (min_le_right _ _)
    | tail _ hx => exact ih (min a (f y)) x hx

lemma foldl_max_ge_init (l : List (ℚ × ℚ)) (f : ℚ × ℚ → ℚ) :
    ∀ a : ℚ, a ≤ l.foldl (fun acc q => max acc (f q)) a := by
  induction l with
  | nil => intro a; exact le_refl a
  | cons x xs ih =>
    intro a
    exact le_trans (le_max_left _ _) (ih (max a (f x)))

lemma foldl_max_ge_mem (l : List (ℚ × ℚ)) (f : ℚ × ℚ → ℚ) :
    ∀ (a : ℚ) (x : ℚ × ℚ), x ∈ l →
      f x ≤ l.foldl (fun acc q => max acc (f q)) a := by
  induction l with
  | nil => intro a x hx; cases hx
  | cons y ys ih =>
    intro a x hx
    cases hx with
    | head => exact le_trans (le_max_right _ _) (foldl_max_ge_init ys f (max a (f y)))
    | tail _ hx => exact ih (max a (f y)) x hx

lemma lowerBoundOn_le (f : ℚ × ℚ → ℚ) (p : ℚ × ℚ) (rest : List (ℚ × ℚ)) :
    ∀ x ∈ p :: rest, lowerBoundOn f p rest ≤ f x := by
  intro x hx
  cases hx with
  | head => exact foldl_min_le_init rest f (f p)
  | tail _ hx => exact foldl_min_le_mem rest f (f p) x hx

lemma le_upperBoundOn (f : ℚ × ℚ → ℚ) (p : ℚ × ℚ) (rest : List (ℚ × ℚ)) :
    ∀ x ∈ p :: rest, f x ≤ upperBoundOn f p rest := by
  intro x hx
  cases hx with
  | head => exact foldl_max_ge_init rest f (f p)
  | tail _ hx => exact foldl_max_ge_mem rest f (f p) x hx

lemma stretch_fst_le (lo hi minExt : ℚ) (h : 0 ≤ minExt) :
    (stretch lo hi minExt).1 ≤ lo := by
  unfold stretch
  split
  · simp
    linarith
  · simp

lemma stretch_snd_ge (lo hi minExt : ℚ) (h : 0 ≤ minExt) :
    hi ≤ (stretch lo hi minExt).2 := by
  unfold stretch
  split
  · simp
    linarith
  · simp

lemma stretch_extent (lo hi minExt : ℚ) (hle : lo ≤ hi) (h : 0 < minExt) :
    minExt ≤ (stretch lo hi minExt).2 - (stretch lo hi minExt).1 := by
  unfold stretch
  split <;> simp <;> linarith

/-- C9: the bounds-fitting point set is exactly
`{start, destination} ∪ {campsites}`; it is always non-empty, so the
fit is performed, and — for any positive padding and minimum extent —
the resulting viewport exists, strictly contains every point of the set
(including for an empty campsite list and for `start = dest`), and has
extent at least the minimum in both axes. -/
theorem C9_bounds_fit (s d : ℚ × ℚ) (cs : List (ℚ × ℚ)) (pad minExt : ℚ)
    (hpad : 0 < pad) (hext : 0 < minExt) :
    (∀ p, p ∈ allPoints s d cs ↔ p = s ∨ p = d ∨ p ∈ cs) ∧
    0 < (allPoints s d cs).length ∧
    ∃ v, fitBoundsEffect (allPoints s d cs) pad minExt = some v ∧
      (∀ p ∈ allPoints s d cs,
        v.south < p.1 ∧ p.1 < v.north ∧ v.west < p.2 ∧ p.2 < v.east) ∧
      minExt ≤ v.north - v.south ∧ minExt ≤ v.east - v.west := by
  have hmem : ∀ p, p ∈ allPoints s d cs ↔ p = s ∨ p = d ∨ p ∈ cs := by
    intro p
    simp [allPoints]
  have hlen : 0 < (allPoints s d cs).length := by simp [allPoints]
  refine ⟨hmem, hlen, ?_⟩
  have hfit : fitBoundsEffect (allPoints s d cs) pad minExt
      = fitViewport (s :: d :: cs) pad minExt := by
    simp [fitBoundsEffect, allPoints]
  refine ⟨_, hfit.trans rfl, ?_, ?_, ?_⟩
  · intro p hp
    have hp' : p ∈ s :: d :: cs := hp
    have hlo1 := lowerBoundOn_le Prod.fst s (d :: cs) p hp'
    have hhi1 := le_upperBoundOn Prod.fst s (d :: cs) p hp'
    have hlo2 := lowerBoundOn_le Prod.snd s (d :: cs) p hp'
    have hhi2 := le_upperBoundOn Prod.snd s (d :: cs) p hp'
    have e1 := stretch_fst_le (lowerBoundOn Prod.fst s (d :: cs) - pad)
      (upperBoundOn Prod.fst s (d :: cs) + pad) minExt (le_of_lt hext)
    have e2 := stretch_snd_ge (lowerBoundOn Prod.fst s (d :: cs) - pad)
      (upperBoundOn Prod.fst s (d :: cs) + pad) minExt (le_of_lt hext)
    have e3 := stretch_fst_le (lowerBoundOn Prod.snd s (d :: cs) - pad)
      (upperBoundOn Prod.snd s (d :: cs) + pad) minExt (le_of_lt hext)
    have e4 := stretch_snd_ge (lowerBoundOn Prod.snd s (d :: cs) - pad)
      (upperBoundOn Prod.snd s (d :: cs) + pad) minExt (le_of_lt hext)
    simp only [fitViewport]
    refine ⟨by linarith, by linarith, by linarith, by linarith⟩
  · have hle : lowerBoundOn Prod.fst s (d :: cs) - pad
        ≤ upperBoundOn Prod.fst s (d :: cs) + pad := by
      have h1 := lowerBoundOn_le Prod.fst s (d :: cs) s (List.mem_cons_self _ _)
      have h2 := le_upperBoundOn Prod.fst s (d :: cs) s (List.mem_cons_self _ _)
      linarith
    simpa only [fitViewport] using
      stretch_extent (lowerBoundOn Prod.fst s (d :: cs) - pad)
        (upperBoundOn Prod.fst s (d :: cs) + pad) minExt hle hext
  · have hle : lowerBoundOn Prod.snd s (d :: cs) - pad
        ≤ upperBoundOn Prod.snd s (d :: cs) + pad := by
      have h1 := lowerBoundOn_le Prod.snd s (d :: cs) s (List.mem_cons_self _ _)
      have h2 := le_upperBoundOn Prod.snd s (d :: cs) s (List.mem_cons_self _ _)
      linarith
    simpa only [fitViewport] using
      stretch_extent (lowerBoundOn Prod.snd s (d :: cs) - pad)
        (upperBoundOn Prod.snd s (d :: cs) + pad) minExt hle hext

theorem C9_bounds_fit_witness :
    (∀ p, p ∈ allPoints ((30.27 : ℚ), (-97.74 : ℚ)) ((30.27 : ℚ), (-97.74 : ℚ)) []
       ↔ p = ((30.27 : ℚ), (-97.74 : ℚ)) ∨ p = ((30.27 : ℚ), (-97.74 : ℚ)) ∨ p ∈ ([] : List (ℚ × ℚ))) ∧
    0 < (allPoints ((30.27 : ℚ), (-97.74 : ℚ)) ((30.27 : ℚ), (-97.74 : ℚ)) []).length ∧
    ∃ v, fitBoundsEffect
          (allPoints ((30.27 : ℚ), (-97.74 : ℚ)) ((30.27 : ℚ), (-97.74 : ℚ)) []) 1 1 = some v ∧
      (∀ p ∈ allPoints ((30.27 : ℚ), (-97.74 : ℚ)) ((30.27 : ℚ), (-97.74 : ℚ)) [],
        v.south < p.1 ∧ p.1 < v.north ∧ v.west < p.2 ∧ p.2 < v.east) ∧
      (1 : ℚ) ≤ v.north - v.south ∧ (1 : ℚ) ≤ v.east - v.west :=
  C9_bounds_fit ((30.27 : ℚ), (-97.74 : ℚ)) ((30.27 : ℚ), (-97.74 : ℚ)) [] 1 1
    (by norm_num) (by norm_num)

end Overlanding
